import Mathlib

/-!
Verification of the build/run bridge subsystem of ITE (`src/main.go`): the
single-slot mailbox (`buildChan`, a Go channel with buffer 1), the result
formatter inside `runCommand`, the task-runner entry points
`onGoBuild`/`onGoRun`, and the UI-thread poller `pollBuildOutput`.  The Go
code is shallowly embedded: the channel contents become a `List String`
(capacity 1), the UI-thread handlers become pure functions from an
application state to a new state paired with a list of external effects in
the order they are performed, and the concurrent send protocol of
`runCommand`'s goroutine becomes a small-step machine.
-/

namespace Ite

/-- Buffer size of the async output channel (`buildChannelBuffer = 1`,
main.go line 45). -/
def buildChannelBuffer : Nat := 1

/-- Poll interval, in milliseconds
(`pollInterval = 100 * time.Millisecond`, main.go line 44). -/
def pollIntervalMs : Nat := 100

/-- Window title for an unnamed buffer (`statusUntitled`, main.go line 52). -/
def statusUntitled : String := "Untitled - ITE"

/-- Status-bar text for an unsaved buffer (`statusNotSaved`, main.go line 53). -/
def statusNotSaved : String := "Not saved"

/-- Status-bar text for a saved buffer (`statusSaved`, main.go line 54). -/
def statusSaved : String := "Saved"

/-- Placeholder shown while a build is in flight (`statusBuilding`,
main.go line 55). -/
def statusBuilding : String := "Building...\n"

/-- Placeholder shown while a run is in flight (`statusRunning`,
main.go line 56). -/
def statusRunning : String := "Running...\n"

/-- Error message when no file context exists (`statusNoFile`,
main.go line 57). -/
def statusNoFile : String := "No file open. Please save first."

/-- ASCII upper-casing of a single character, the fragment of
`unicode.ToTitle` exercised by the labels "build" and "run". -/
def asciiToUpper (c : Char) : Char :=
  if 97 ≤ c.toNat ∧ c.toNat ≤ 122 then Char.ofNat (c.toNat - 32) else c

/-- Word-separator test of Go `strings.Title` (ASCII fragment): a character
is a separator unless it is a digit, a letter or an underscore. -/
def isSeparator (c : Char) : Bool :=
  !((48 ≤ c.toNat && c.toNat ≤ 57) || (97 ≤ c.toNat && c.toNat ≤ 122) ||
    (65 ≤ c.toNat && c.toNat ≤ 90) || c == '_')

/-- Character-by-character worker of `strings.Title`: upper-cases each
character whose predecessor is a separator, threading the original
predecessor exactly as the Go closure threads `prev`. -/
def titleAux : Char → List Char → List Char
  | _, [] => []
  | prev, c :: cs =>
      (if isSeparator prev then asciiToUpper c else c) :: titleAux c cs

/-- Go `strings.Title` (ASCII fragment), used by `runCommand` to capitalize
the operation label (main.go lines 487, 490, 492); the initial `prev` is a
space, so the first letter is always title-cased. -/
def stringsTitle (s : String) : String := String.mk (titleAux ' ' s.data)

/-- The result-formatting branch of `runCommand`'s goroutine
(main.go lines 482-493): `arg0` is the first command argument
("build"/"run"), `output` the combined captured output, and `err` the
launch/wait error when the invocation failed (`none` on success). -/
def formatMsg (arg0 : String) (output : String) (err : Option String) : String :=
  match err with
  | some e =>
      if output = "" then arg0 ++ " failed: " ++ e ++ "\n"
      else stringsTitle arg0 ++ " failed:\n" ++ output
  | none =>
      if output = "" then stringsTitle arg0 ++ " successful\n"
      else stringsTitle arg0 ++ " output:\n" ++ output

/-- One complete, uninterfered execution of the non-blocking send at
main.go lines 495-505 on a capacity-1 channel: try to send; if the channel
is full, drain one stale message and then send.  Faithful for channel
contents of length at most `buildChannelBuffer`, the only states a
capacity-1 Go channel can reach. -/
def offer (c : List String) (msg : String) : List String :=
  if c.length < buildChannelBuffer then c ++ [msg]
  else c.drop 1 ++ [msg]

/-- The non-blocking receive (`select` with a `default` branch) used by
`pollBuildOutput` (main.go lines 536-544): returns the pending message, if
any, together with the channel contents afterwards. -/
def tryTake (c : List String) : Option String × List String :=
  match c with
  | [] => (none, [])
  | m :: rest => (some m, rest)

/-- After any sequence of uninterfered offers, the channel holds exactly
the last message offered. -/
theorem foldl_offer_eq_last (msgs : List String) :
    ∀ c : List String, c.length ≤ buildChannelBuffer → msgs ≠ [] →
      ∃ last, msgs.getLast? = some last ∧ List.foldl offer c msgs = [last] := by
  induction msgs with
  | nil => intro c _ hne; exact absurd rfl hne
  | cons m rest ih =>
    intro c hc _
    have hoff : offer c m = [m] := by
      unfold offer buildChannelBuffer
      rcases c with _ | ⟨x, t⟩
      · simp
      · rcases t with _ | ⟨y, u⟩
        · simp
        · simp [buildChannelBuffer] at hc
    cases hrest : rest with
    | nil =>
      refine ⟨m, rfl, ?_⟩
      simp [hoff]
    | cons r rs =>
      obtain ⟨last, hlast, hfold⟩ :=
        ih (offer c m) (by simp [hoff, buildChannelBuffer]) (by simp [hrest])
      subst hrest
      refine ⟨last, ?_, ?_⟩
      · rw [List.getLast?_cons_cons]
        exact hlast
      · simpa [hoff] using hfold

/-- C1: the single-slot mailbox holds at most one message at every instant
(`offer` and `tryTake` preserve the capacity-1 bound), and after any
nonempty sequence of offers with no intervening `tryTake`, the next
`tryTake` returns exactly the last-offered message and leaves the slot
empty, so all earlier offered messages are unobservable. -/
theorem mailbox_replace_with_latest (c : List String) (msgs : List String)
    (m : String) (hc : c.length ≤ buildChannelBuffer) (hne : msgs ≠ []) :
    (offer c m).length ≤ buildChannelBuffer ∧
    (tryTake c).2.length ≤ buildChannelBuffer ∧
    ∃ last, msgs.getLast? = some last ∧
      tryTake (List.foldl offer c msgs) = (some last, []) := by
  obtain ⟨last, hlast, hfold⟩ := foldl_offer_eq_last msgs c hc hne
  refine ⟨?_, ?_, last, hlast, ?_⟩
  · unfold offer buildChannelBuffer
    rcases c with _ | ⟨x, t⟩
    · simp
    · rcases t with _ | ⟨y, u⟩
      · simp
      · simp [buildChannelBuffer] at hc
  · rcases c with _ | ⟨x, t⟩
    · simp [tryTake]
    · simp only [tryTake]
      simp at hc ⊢
      omega
  · rw [hfold]
    rfl

/-- Witness for C1 at a concrete mailbox and offer sequence. -/
theorem mailbox_replace_with_latest_witness :
    ([] : List String).length ≤ buildChannelBuffer ∧
    (["a", "b", "c"] : List String) ≠ [] ∧
    ∃ last, (["a", "b", "c"] : List String).getLast? = some last ∧
      tryTake (List.foldl offer [] ["a", "b", "c"]) = (some last, []) :=
  ⟨by decide, by decide,
    (mailbox_replace_with_latest [] ["a", "b", "c"] "x" (by decide)
      (by decide)).2.2⟩

/-- C8: a `tryTake` on an empty slot returns "nothing available" and
leaves the slot empty, and after a single `offer` two consecutive
`tryTake`s return the message exactly once: the first yields it and
empties the slot, the second finds nothing. -/
theorem tryTake_drain_idempotent (c : List String) (m : String)
    (hc : c.length ≤ buildChannelBuffer) :
    tryTake ([] : List String) = (none, []) ∧
    tryTake (offer c m) = (some m, []) ∧
    tryTake (tryTake (offer c m)).2 = (none, []) := by
  have hoff : offer c m = [m] := by
    unfold offer buildChannelBuffer
    rcases c with _ | ⟨x, t⟩
    · simp
    · rcases t with _ | ⟨y, u⟩
      · simp
      · simp [buildChannelBuffer] at hc
  refine ⟨rfl, ?_, ?_⟩ <;> rw [hoff] <;> rfl

/-- Witness for C8 at a concrete mailbox state. -/
theorem tryTake_drain_idempotent_witness :
    tryTake ([] : List String) = (none, []) ∧
    tryTake (offer ["old"] "m") = (some "m", []) ∧
    tryTake (tryTake (offer ["old"] "m")).2 = (none, []) :=
  tryTake_drain_idempotent ["old"] "m" (by decide)

/-- C3 (amended): a successful outcome with empty captured output is
formatted as the title-cased label followed by " successful\n" — for
"build" exactly "Build successful\n" and for "run" exactly
"Run successful\n"; there is no special "Program finished (no output)"
message for run. -/
theorem success_empty_output_message :
    formatMsg "build" "" none = "Build successful\n" ∧
    formatMsg "run" "" none = "Run successful\n" :=
  ⟨rfl, rfl⟩

/-- C3 counterexample: a successful run with empty output is formatted as
"Run successful\n", which is not the "Program finished (no output)\n"
message the claim states. -/
theorem run_success_empty_not_program_finished :
    formatMsg "run" "" none = "Run successful\n" ∧
    formatMsg "run" "" none ≠ "Program finished (no output)\n" :=
  ⟨rfl, by decide⟩

/-- C4: a failed outcome with empty captured output is formatted as
"<label> failed: <error>\n" with the label kept verbatim (lowercase as
passed); a failed outcome with non-empty output is formatted as
"<Label> failed:\n<output>" with the label title-cased and the output
appended verbatim; in particular a run failing with output "panic: x\n"
formats to exactly "Run failed:\npanic: x\n". -/
theorem failure_message_format (label e out : String) (hout : out ≠ "") :
    formatMsg label "" (some e) = label ++ " failed: " ++ e ++ "\n" ∧
    formatMsg "build" out (some e) = "Build" ++ " failed:\n" ++ out ∧
    formatMsg "run" out (some e) = "Run" ++ " failed:\n" ++ out ∧
    formatMsg "run" "panic: x\n" (some e) = "Run failed:\npanic: x\n" := by
  refine ⟨rfl, ?_, ?_, rfl⟩ <;> simp [formatMsg, hout] <;> rfl

/-- Witness for C4 at the concrete inputs of Scenario C. -/
theorem failure_message_format_witness :
    formatMsg "build" "" (some "exit status 1") =
      "build" ++ " failed: " ++ "exit status 1" ++ "\n" ∧
    formatMsg "run" "panic: x\n" (some "exit status 2") =
      "Run failed:\npanic: x\n" :=
  ⟨(failure_message_format "build" "exit status 1" "panic: x\n"
      (by decide)).1,
   (failure_message_format "run" "exit status 2" "panic: x\n"
      (by decide)).2.2.2⟩

/-- Drop trailing path separators, the first normalization step of Go
`filepath.Base`. -/
def dropTrailingSlashes (l : List Char) : List Char :=
  (l.reverse.dropWhile (· = '/')).reverse

/-- The characters after the last path separator, the final step of Go
`filepath.Base`. -/
def lastComponent (l : List Char) : List Char :=
  (l.reverse.takeWhile (· ≠ '/')).reverse

/-- Go `filepath.Base` on Unix paths, used by `onSave` to build the window
title (main.go line 344): empty path gives ".", a path of only slashes
gives "/", otherwise the last element after trailing slashes are removed. -/
def filepathBase (p : String) : String :=
  if p = "" then "."
  else
    let t := dropTrailingSlashes p.data
    if t = [] then "/" else String.mk (lastComponent t)

/-- The UI-owned application state of `Ite` (main.go lines 66-84) restricted
to the fields the build/run bridge reads or writes: the current file path,
the editor buffer and its modified flag, the cursor position string, the
output console (`editText2`) with its disabled flag, the window title, the
two status-bar labels, and the contents of `buildChan`. -/
structure IteState where
  currentFile : String
  modified : Bool
  editText : String
  cursorPos : String
  editText2 : String
  editText2Disabled : Bool
  windowTitle : String
  statusLabelCursor : String
  statusLabelFile : String
  buildChan : List String
deriving DecidableEq, Repr

/-- External actions a handler performs, recorded in the order the Go code
performs them: show a modal error dialog (`showError`), open the Save-As
file dialog (`onSaveAs`), write a file to disk (`os.WriteFile`), replace
the output console's content (the Configure/Clear/Insert sequence on
`editText2`), start a background goroutine running a `go` command
(`exec.Command`), and schedule a timer callback (`TclAfter`). -/
inductive Effect where
  | showError (msg : String)
  | saveAsDialog
  | writeFile (path : String) (content : String)
  | render (text : String)
  | spawn (argv : List String)
  | schedule (ms : Nat)
deriving DecidableEq, Repr

/-- `updateCursorPosition` (main.go lines 384-396): refreshes the cursor
label and colours the file label "Not saved"/"Saved" from the modified
flag. -/
def updateCursorPosition (s : IteState) : IteState :=
  { s with statusLabelCursor := "Line:Column " ++ s.cursorPos,
           statusLabelFile := if s.modified then statusNotSaved else statusSaved }

/-- `onSave` (main.go lines 334-347).  With no current file it delegates to
the Save-As dialog (modelled as an effect, since no claim exercises that
path).  Otherwise it writes the editor buffer to the current file;
`werr` is the outcome of `os.WriteFile` (`some e` on error, in which case
an error dialog is shown and the state is untouched; `none` on success, in
which case the title is updated, the modified flag cleared and the status
bar refreshed). -/
def onSave (werr : Option String) (s : IteState) : IteState × List Effect :=
  if s.currentFile = "" then (s, [Effect.saveAsDialog])
  else
    match werr with
    | some e =>
        (s, [Effect.writeFile s.currentFile s.editText,
             Effect.showError ("Error saving file: " ++ e)])
    | none =>
        (updateCursorPosition
          { s with windowTitle := filepathBase s.currentFile ++ " - ITE",
                   modified := false },
         [Effect.writeFile s.currentFile s.editText])

/-- The UI-thread part of `runCommand` (main.go lines 466-473): replace the
output console with the placeholder message, disable it again, then start
the background goroutine that will execute `go args...`.  The working
directory chosen inside the goroutine and the later format-and-offer step
are covered by `formatMsg` and `offer`. -/
def runCommand (s : IteState) (args : List String) (initialMsg : String) :
    IteState × List Effect :=
  ({ s with editText2 := initialMsg, editText2Disabled := true },
   [Effect.render initialMsg, Effect.spawn ("go" :: args)])

/-- `onGoBuild` (main.go lines 510-519): with no current file, show the
"no file" dialog and stop; otherwise save first when the buffer is
modified, then run `go build ./...` with the "Building...\n" placeholder. -/
def onGoBuild (werr : Option String) (s : IteState) : IteState × List Effect :=
  if s.currentFile = "" then (s, [Effect.showError statusNoFile])
  else
    let p := if s.modified then onSave werr s else (s, [])
    let q := runCommand p.1 ["build", "./..."] statusBuilding
    (q.1, p.2 ++ q.2)

/-- `onGoRun` (main.go lines 522-531): with no current file, show the
"no file" dialog and stop; otherwise save first when the buffer is
modified, then run `go run .` with the "Running...\n" placeholder. -/
def onGoRun (werr : Option String) (s : IteState) : IteState × List Effect :=
  if s.currentFile = "" then (s, [Effect.showError statusNoFile])
  else
    let p := if s.modified then onSave werr s else (s, [])
    let q := runCommand p.1 ["run", "."] statusRunning
    (q.1, p.2 ++ q.2)

/-- `pollBuildOutput` (main.go lines 535-547): non-blocking receive from
`buildChan`; if a message is pending, render it into the output console;
in every case schedule the next poll after `pollInterval`. -/
def pollBuildOutput (s : IteState) : IteState × List Effect :=
  match s.buildChan with
  | msg :: rest =>
      ({ s with buildChan := rest, editText2 := msg, editText2Disabled := true },
       [Effect.render msg, Effect.schedule pollIntervalMs])
  | [] => (s, [Effect.schedule pollIntervalMs])

/-- Effect-classification helper: `true` exactly on `spawn` effects. -/
def isSpawn : Effect → Bool
  | Effect.spawn _ => true
  | _ => false

/-- Effect-classification helper: `true` exactly on `render` effects. -/
def isRender : Effect → Bool
  | Effect.render _ => true
  | _ => false

/-- C5: a build or run request with no file context shows exactly the
"no file" error dialog, leaves the state (in particular the mailbox)
unchanged, and performs no spawn — no background work and no child
process. -/
theorem no_file_precondition (werr : Option String) (s : IteState)
    (h : s.currentFile = "") (hm : s.buildChan = []) :
    onGoBuild werr s = (s, [Effect.showError statusNoFile]) ∧
    onGoRun werr s = (s, [Effect.showError statusNoFile]) ∧
    (onGoBuild werr s).1.buildChan = [] ∧
    (∀ e ∈ (onGoBuild werr s).2, isSpawn e = false) ∧
    (∀ e ∈ (onGoRun werr s).2, isSpawn e = false) := by
  simp [onGoBuild, onGoRun, h, hm, isSpawn]

/-- Witness for C5 at a concrete empty-file state. -/
theorem no_file_precondition_witness :
    onGoBuild none
        ⟨"", false, "t", "1.0", "", true, statusUntitled, "", "", []⟩ =
      (⟨"", false, "t", "1.0", "", true, statusUntitled, "", "", []⟩,
        [Effect.showError statusNoFile]) ∧
    onGoRun none
        ⟨"", false, "t", "1.0", "", true, statusUntitled, "", "", []⟩ =
      (⟨"", false, "t", "1.0", "", true, statusUntitled, "", "", []⟩,
        [Effect.showError statusNoFile]) :=
  ⟨(no_file_precondition none _ rfl rfl).1,
   (no_file_precondition none _ rfl rfl).2.1⟩

/-- C6: when a file context exists and the buffer has unsaved
modifications, a build or run request first writes the editor buffer to
the current file on disk and only afterwards spawns the background
execution — the disk write is the first effect and the spawn the last. -/
theorem save_before_spawn (werr : Option String) (s : IteState)
    (h : ¬ s.currentFile = "") (hm : s.modified = true) :
    (∃ mid, (onGoBuild werr s).2 =
        Effect.writeFile s.currentFile s.editText :: mid ++
          [Effect.spawn ["go", "build", "./..."]]) ∧
    (∃ mid, (onGoRun werr s).2 =
        Effect.writeFile s.currentFile s.editText :: mid ++
          [Effect.spawn ["go", "run", "."]]) := by
  cases werr with
  | none =>
      refine ⟨⟨[Effect.render statusBuilding], ?_⟩,
              ⟨[Effect.render statusRunning], ?_⟩⟩ <;>
        simp [onGoBuild, onGoRun, onSave, runCommand, h, hm]
  | some e =>
      refine ⟨⟨[Effect.showError ("Error saving file: " ++ e),
                Effect.render statusBuilding], ?_⟩,
              ⟨[Effect.showError ("Error saving file: " ++ e),
                Effect.render statusRunning], ?_⟩⟩ <;>
        simp [onGoBuild, onGoRun, onSave, runCommand, h, hm]

/-- Witness for C6 at a concrete modified state. -/
theorem save_before_spawn_witness :
    (∃ mid, (onGoBuild none
        ⟨"/p/a.go", true, "code", "1.0", "", true, "a.go - ITE",
          "", "", []⟩).2 =
        Effect.writeFile "/p/a.go" "code" :: mid ++
          [Effect.spawn ["go", "build", "./..."]]) ∧
    (∃ mid, (onGoRun none
        ⟨"/p/a.go", true, "code", "1.0", "", true, "a.go - ITE",
          "", "", []⟩).2 =
        Effect.writeFile "/p/a.go" "code" :: mid ++
          [Effect.spawn ["go", "run", "."]]) :=
  save_before_spawn none _ (by decide) rfl

/-- C9: a build (respectively run) request that passes the file-context
precondition replaces the output console with the "Building...\n"
(respectively "Running...\n") placeholder before the background execution
is spawned: the effect trace ends with the placeholder render immediately
followed by the spawn, nothing before them renders or spawns, and the
resulting console content is the placeholder. -/
theorem placeholder_before_spawn (werr : Option String) (s : IteState)
    (h : ¬ s.currentFile = "") :
    (∃ pre, (onGoBuild werr s).2 =
        pre ++ [Effect.render statusBuilding,
                Effect.spawn ["go", "build", "./..."]] ∧
        ∀ e ∈ pre, isRender e = false ∧ isSpawn e = false) ∧
    (onGoBuild werr s).1.editText2 = statusBuilding ∧
    (∃ pre, (onGoRun werr s).2 =
        pre ++ [Effect.render statusRunning,
                Effect.spawn ["go", "run", "."]] ∧
        ∀ e ∈ pre, isRender e = false ∧ isSpawn e = false) ∧
    (onGoRun werr s).1.editText2 = statusRunning := by
  cases hm : s.modified with
  | false =>
      refine ⟨⟨[], ?_, by simp⟩, ?_, ⟨[], ?_, by simp⟩, ?_⟩ <;>
        simp [onGoBuild, onGoRun, runCommand, h, hm]
  | true =>
      cases werr with
      | none =>
          refine ⟨⟨[Effect.writeFile s.currentFile s.editText], ?_, ?_⟩, ?_,
                  ⟨[Effect.writeFile s.currentFile s.editText], ?_, ?_⟩, ?_⟩ <;>
            simp [onGoBuild, onGoRun, onSave, runCommand, h, hm, isRender, isSpawn]
      | some e =>
          refine ⟨⟨[Effect.writeFile s.currentFile s.editText,
                    Effect.showError ("Error saving file: " ++ e)], ?_, ?_⟩, ?_,
                  ⟨[Effect.writeFile s.currentFile s.editText,
                    Effect.showError ("Error saving file: " ++ e)], ?_, ?_⟩, ?_⟩ <;>
            simp [onGoBuild, onGoRun, onSave, runCommand, h, hm, isRender, isSpawn]

/-- Witness for C9 at a concrete unmodified state with a file open. -/
theorem placeholder_before_spawn_witness :
    (onGoBuild none
        ⟨"/p/a.go", false, "code", "1.0", "old", true, "a.go - ITE",
          "", "", []⟩).1.editText2 = statusBuilding ∧
    (onGoRun none
        ⟨"/p/a.go", false, "code", "1.0", "old", true, "a.go - ITE",
          "", "", []⟩).1.editText2 = statusRunning :=
  ⟨(placeholder_before_spawn none _ (by decide)).2.1,
   (placeholder_before_spawn none _ (by decide)).2.2.2⟩

/-- C7: the poller has no terminal state: on every firing — whether or not
a message was drained — its last action is to reschedule itself after the
fixed poll interval, and a firing on an empty mailbox performs no UI
mutation at all (the state is returned unchanged and the only effect is
the rescheduling). -/
theorem poller_always_reschedules (s : IteState) (h : s.buildChan = []) :
    (∀ t : IteState,
        (pollBuildOutput t).2.getLast? = some (Effect.schedule pollIntervalMs)) ∧
    pollBuildOutput s = (s, [Effect.schedule pollIntervalMs]) := by
  constructor
  · intro t
    cases ht : t.buildChan <;> simp [pollBuildOutput, ht]
  · simp [pollBuildOutput, h]

/-- Witness for C7 at a concrete empty-mailbox state. -/
theorem poller_always_reschedules_witness :
    pollBuildOutput
        ⟨"/p/a.go", false, "code", "1.0", "old", true, "a.go - ITE",
          "", "", []⟩ =
      (⟨"/p/a.go", false, "code", "1.0", "old", true, "a.go - ITE",
          "", "", []⟩,
        [Effect.schedule pollIntervalMs]) :=
  (poller_always_reschedules _ rfl).2

/-- C10: a poller firing mutates only the output console: for every state,
drained message or not, the editor buffer, the current-file path, the
window title, both status-bar labels, the modified flag and the cursor
position are unchanged by `pollBuildOutput`. -/
theorem poller_frame_condition (s : IteState) :
    (pollBuildOutput s).1.editText = s.editText ∧
    (pollBuildOutput s).1.currentFile = s.currentFile ∧
    (pollBuildOutput s).1.windowTitle = s.windowTitle ∧
    (pollBuildOutput s).1.statusLabelCursor = s.statusLabelCursor ∧
    (pollBuildOutput s).1.statusLabelFile = s.statusLabelFile ∧
    (pollBuildOutput s).1.modified = s.modified ∧
    (pollBuildOutput s).1.cursorPos = s.cursorPos := by
  cases h : s.buildChan <;> simp [pollBuildOutput, h]

/-- Program counter of one background goroutine executing the send
protocol at main.go lines 495-505: `start` is about to run the outer
`select` (buffered send with a `default` branch), `atDrain` is about to
run the inner `select` (receive with a `default` branch), `atSend` is
about to run the final unconditional send `i.buildChan <- msg`
(main.go line 504), and `done` has returned. -/
inductive WriterPC where
  | start (msg : String)
  | atDrain (msg : String)
  | atSend (msg : String)
  | done
deriving DecidableEq, Repr

/-- A configuration of the channel protocol: the contents of the
capacity-1 channel and the program counters of the background writers. -/
structure MConfig where
  chan : List String
  writers : List WriterPC
deriving DecidableEq, Repr

/-- One atomic channel action of writer `i`, following Go channel
semantics for `buildChan` (buffer `buildChannelBuffer = 1`): the outer
select's send succeeds exactly when the buffer has room and otherwise
falls to the default branch; the inner select's receive removes one
message when present and otherwise falls through; the final send
(main.go line 504) fires only when the buffer has room — when the buffer
is full it is not enabled, which is precisely a blocked goroutine. -/
inductive WriterStep : Nat → MConfig → MConfig → Prop where
  | sendFastOk (i : Nat) (msg : String) (c : MConfig)
      (hpc : c.writers[i]? = some (WriterPC.start msg))
      (hlen : c.chan.length < buildChannelBuffer) :
      WriterStep i c ⟨c.chan ++ [msg], c.writers.set i WriterPC.done⟩
  | sendFastFull (i : Nat) (msg : String) (c : MConfig)
      (hpc : c.writers[i]? = some (WriterPC.start msg))
      (hlen : buildChannelBuffer ≤ c.chan.length) :
      WriterStep i c ⟨c.chan, c.writers.set i (WriterPC.atDrain msg)⟩
  | drainOk (i : Nat) (msg x : String) (rest : List String) (c : MConfig)
      (hpc : c.writers[i]? = some (WriterPC.atDrain msg))
      (hchan : c.chan = x :: rest) :
      WriterStep i c ⟨rest, c.writers.set i (WriterPC.atSend msg)⟩
  | drainEmpty (i : Nat) (msg : String) (c : MConfig)
      (hpc : c.writers[i]? = some (WriterPC.atDrain msg))
      (hchan : c.chan = []) :
      WriterStep i c ⟨[], c.writers.set i (WriterPC.atSend msg)⟩
  | sendFinal (i : Nat) (msg : String) (c : MConfig)
      (hpc : c.writers[i]? = some (WriterPC.atSend msg))
      (hlen : c.chan.length < buildChannelBuffer) :
      WriterStep i c ⟨c.chan ++ [msg], c.writers.set i WriterPC.done⟩

/-- One atomic action of the UI-thread reader: the non-blocking receive of
`pollBuildOutput` taking the pending message (the empty case changes
nothing, so it needs no step). -/
inductive ReaderStep : MConfig → MConfig → Prop where
  | take (x : String) (rest : List String) (c : MConfig)
      (hchan : c.chan = x :: rest) :
      ReaderStep c ⟨rest, c.writers⟩

/-- Interleaving step of the whole system: some writer acts, or the
reader acts. -/
def SysStep (c c' : MConfig) : Prop :=
  (∃ i, WriterStep i c c') ∨ ReaderStep c c'

/-- Reachability under arbitrary interleavings. -/
def SysReach : MConfig → MConfig → Prop :=
  Relation.ReflTransGen SysStep

/-- Writer `i` is blocked: it sits at the unconditional send of
main.go line 504 while the channel is full, so by Go channel semantics
its goroutine is stalled until the UI thread drains the channel. -/
def writerBlocked (c : MConfig) (i : Nat) : Prop :=
  ∃ msg, c.writers[i]? = some (WriterPC.atSend msg) ∧
    buildChannelBuffer ≤ c.chan.length

/-- A blocked writer has no enabled action: no `WriterStep` leaves a
configuration in which that writer is blocked. -/
theorem blocked_writer_has_no_step (c : MConfig) (i : Nat)
    (hb : writerBlocked c i) : ∀ c', ¬ WriterStep i c c' := by
  rintro c' hs
  obtain ⟨msg, hpc, hlen⟩ := hb
  cases hs <;> simp_all [buildChannelBuffer]

/-- C2 counterexample: with more than one background writer the final,
unconditional send of the offer protocol can block.  From an empty channel
and three fresh writers there is a reachable interleaving — writer 0
completes an offer filling the channel; writer 1 finds the channel full,
drains it, and is about to run its unconditional send; writer 2 then
completes a fast offer, refilling the channel — after which writer 1 is
blocked: it sits at `i.buildChan <- msg` (main.go line 504) with the
capacity-1 channel full. -/
theorem offer_with_two_writers_can_block :
    SysReach
      ⟨[], [WriterPC.start "x", WriterPC.start "a", WriterPC.start "b"]⟩
      ⟨["b"], [WriterPC.done, WriterPC.atSend "a", WriterPC.done]⟩ ∧
    writerBlocked
      ⟨["b"], [WriterPC.done, WriterPC.atSend "a", WriterPC.done]⟩ 1 := by
  constructor
  · refine Relation.ReflTransGen.head
      (Or.inl ⟨0, WriterStep.sendFastOk 0 "x" _ rfl (by decide)⟩) ?_
    refine Relation.ReflTransGen.head
      (Or.inl ⟨1, WriterStep.sendFastFull 1 "a" _ rfl (by decide)⟩) ?_
    refine Relation.ReflTransGen.head
      (Or.inl ⟨1, WriterStep.drainOk 1 "a" "x" [] _ rfl rfl⟩) ?_
    refine Relation.ReflTransGen.head
      (Or.inl ⟨2, WriterStep.sendFastOk 2 "b" _ rfl (by decide)⟩) ?_
    exact Relation.ReflTransGen.refl
  · exact ⟨"a", rfl, by decide⟩

/-- Updating the head writer makes it visible at index 0. -/
theorem getElem_set_zero (l : List WriterPC) (pc x : WriterPC)
    (h : l[0]? = some x) : (l.set 0 pc)[0]? = some pc := by
  cases l with
  | nil => simp at h
  | cons a t => simp

/-- Interleaving step of the intended single-writer system: the one
background goroutine (writer 0) acts, or the UI-thread reader acts. -/
def SysStepSingle (c c' : MConfig) : Prop :=
  WriterStep 0 c c' ∨ ReaderStep c c'

/-- Rank of a writer program counter: the number of atomic channel
actions the offer protocol can still take from there. -/
def pcRank : Option WriterPC → Nat
  | some (WriterPC.start _) => 3
  | some (WriterPC.atDrain _) => 2
  | some (WriterPC.atSend _) => 1
  | _ => 0

/-- Invariant of the single-writer system: the capacity-1 bound holds and
whenever the writer is about to run its unconditional send the channel is
empty (its own drain emptied it, and the reader only ever removes). -/
def SingleWriterInv (c : MConfig) : Prop :=
  c.chan.length ≤ buildChannelBuffer ∧
  ∀ msg, c.writers[0]? = some (WriterPC.atSend msg) → c.chan = []

/-- Every step of the single-writer system preserves `SingleWriterInv`. -/
theorem singleWriterInv_step (c c' : MConfig) (h : SysStepSingle c c')
    (hi : SingleWriterInv c) : SingleWriterInv c' := by
  obtain ⟨hlen, hsend⟩ := hi
  cases h with
  | inl hw =>
    cases hw with
    | sendFastOk msg d hpc hl =>
      refine ⟨?_, ?_⟩
      · have h1 : buildChannelBuffer = 1 := rfl
        rw [h1] at hl ⊢
        simp
        exact List.length_eq_zero.mp (by omega)
      · intro m hm
        rw [getElem_set_zero c.writers WriterPC.done _ hpc] at hm
        simp at hm
    | sendFastFull msg d hpc hl =>
      refine ⟨hlen, ?_⟩
      intro m hm
      rw [getElem_set_zero c.writers (WriterPC.atDrain msg) _ hpc] at hm
      simp at hm
    | drainOk msg x rest d hpc hchan =>
      have hrest : rest = [] := by
        rw [hchan] at hlen
        simp only [buildChannelBuffer, List.length_cons] at hlen
        have : rest.length = 0 := by omega
        exact List.length_eq_zero.mp this
      subst hrest
      exact ⟨by simp [buildChannelBuffer], fun m hm => rfl⟩
    | drainEmpty msg d hpc hchan =>
      exact ⟨by simp [buildChannelBuffer], fun m hm => rfl⟩
    | sendFinal msg d hpc hl =>
      refine ⟨?_, ?_⟩
      · have h1 : buildChannelBuffer = 1 := rfl
        rw [h1] at hl ⊢
        simp
        exact List.length_eq_zero.mp (by omega)
      · intro m hm
        rw [getElem_set_zero c.writers WriterPC.done _ hpc] at hm
        simp at hm
  | inr hr =>
    cases hr with
    | take x rest d hchan =>
      refine ⟨?_, ?_⟩
      · rw [hchan] at hlen
        simp only [buildChannelBuffer, List.length_cons] at hlen ⊢
        omega
      · intro m hm
        have h0 := hsend m hm
        rw [hchan] at h0
        simp at h0

/-- `SingleWriterInv` holds at every configuration reachable in the
single-writer system from a configuration satisfying it. -/
theorem singleWriterInv_reach (c c' : MConfig)
    (h : Relation.ReflTransGen SysStepSingle c c')
    (hi : SingleWriterInv c) : SingleWriterInv c' := by
  induction h with
  | refl => exact hi
  | tail hsteps hstep ih => exact singleWriterInv_step _ _ hstep ih

/-- C2 (amended): with the intended single background writer, the offer
protocol never blocks — at every configuration reachable from a start
state whose one writer is about to offer and whose capacity-1 channel
satisfies its bound, the writer is never stuck at the unconditional send
with a full channel — and every offer completes within bounded, constant
time: each of its atomic channel actions strictly decreases a rank that
starts at 3, so an offer takes at most three actions, none of which
waits. -/
theorem offer_never_blocks_single_writer (c0 c : MConfig) (msg : String)
    (hw : c0.writers = [WriterPC.start msg])
    (hc : c0.chan.length ≤ buildChannelBuffer)
    (hr : Relation.ReflTransGen SysStepSingle c0 c) :
    ¬ writerBlocked c 0 ∧
    ∀ d d' : MConfig, WriterStep 0 d d' →
      pcRank (d'.writers[0]?) < pcRank (d.writers[0]?) := by
  constructor
  · have hi : SingleWriterInv c := by
      refine singleWriterInv_reach c0 c hr ⟨hc, ?_⟩
      intro m hm
      rw [hw] at hm
      simp at hm
    rintro ⟨m, hpc, hlen⟩
    have h0 := hi.2 m hpc
    rw [h0] at hlen
    simp [buildChannelBuffer] at hlen
  · intro d d' hs
    cases hs with
    | sendFastOk m dd hpc hl =>
      rw [hpc, getElem_set_zero d.writers WriterPC.done _ hpc]
      simp [pcRank]
    | sendFastFull m dd hpc hl =>
      rw [hpc, getElem_set_zero d.writers (WriterPC.atDrain m) _ hpc]
      simp [pcRank]
    | drainOk m x rest dd hpc hchan =>
      rw [hpc, getElem_set_zero d.writers (WriterPC.atSend m) _ hpc]
      simp [pcRank]
    | drainEmpty m dd hpc hchan =>
      rw [hpc, getElem_set_zero d.writers (WriterPC.atSend m) _ hpc]
      simp [pcRank]
    | sendFinal m dd hpc hl =>
      rw [hpc, getElem_set_zero d.writers WriterPC.done _ hpc]
      simp [pcRank]

/-- Witness for the amended C2 at a concrete single-writer start state. -/
theorem offer_never_blocks_single_writer_witness :
    ¬ writerBlocked ⟨[], [WriterPC.start "m"]⟩ 0 :=
  (offer_never_blocks_single_writer ⟨[], [WriterPC.start "m"]⟩
      ⟨[], [WriterPC.start "m"]⟩ "m" rfl (by decide)
      Relation.ReflTransGen.refl).1

end Ite
